import Mathlib

set_option maxRecDepth 8192

/-!
Shallow embedding of the arm monitoring agent's core, from the repository
sources `interface/logPanel.py` and `src/util/torTools.py`.

Python strings are modelled as Lean `String` (or `List Char` where index
arithmetic matters), Python sets as `Finset String`, Python lists as Lean
lists.  Mutation is modelled by returning the updated state.
-/

/-! ### interface/logPanel.py : event-flag expansion -/

/-- TOR_EVENT_TYPES of interface/logPanel.py: the single-letter to
event-name table. -/
def TOR_EVENT_TYPES : List (Char × String) :=
  [('d', "DEBUG"),  ('a', "ADDRMAP"),     ('l', "NEWDESC"),   ('v', "AUTHDIR_NEWDESCS"),
   ('i', "INFO"),   ('b', "BW"),          ('m', "NS"),        ('x', "STATUS_GENERAL"),
   ('n', "NOTICE"), ('c', "CIRC"),        ('o', "ORCONN"),    ('y', "STATUS_CLIENT"),
   ('w', "WARN"),   ('f', "DESCCHANGED"), ('s', "STREAM"),    ('z', "STATUS_SERVER"),
   ('e', "ERR"),    ('g', "GUARD"),       ('t', "STREAM_BW"),
                    ('k', "NEWCONSENSUS"),('u', "CLIENTS_SEEN")]

/-- The set produced by flag 'A': all tor events plus the five arm runlevels. -/
def ALL_EVENTS : Finset String :=
  ((TOR_EVENT_TYPES.map Prod.snd) ++
    ["ARM_DEBUG", "ARM_INFO", "ARM_NOTICE", "ARM_WARN", "ARM_ERR"]).toFinset

/-- The for-loop of `expandEvents`: walks the flag characters accumulating the
expanded set and the invalid characters; 'A' and 'X' break out of the loop. -/
def expandEventsLoop : List Char → Finset String → List Char → Finset String × List Char
  | [], evts, invalid => (evts, invalid)
  | c :: rest, evts, invalid =>
    if c = 'A' then (ALL_EVENTS, invalid)
    else if c = 'X' then (∅, invalid)
    else if c = 'C' then expandEventsLoop rest (insert "TORCTL" evts) invalid
    else if c = 'U' then expandEventsLoop rest (insert "UNKNOWN" evts) invalid
    else if c = 'D' then
      expandEventsLoop rest (evts ∪ {"DEBUG", "INFO", "NOTICE", "WARN", "ERR"}) invalid
    else if c = 'I' then
      expandEventsLoop rest (evts ∪ {"INFO", "NOTICE", "WARN", "ERR"}) invalid
    else if c = 'N' then
      expandEventsLoop rest (evts ∪ {"NOTICE", "WARN", "ERR"}) invalid
    else if c = 'W' then
      expandEventsLoop rest (evts ∪ {"WARN", "ERR"}) invalid
    else if c = 'E' then expandEventsLoop rest (insert "ERR" evts) invalid
    else if c = '1' then
      expandEventsLoop rest
        (evts ∪ {"ARM_DEBUG", "ARM_INFO", "ARM_NOTICE", "ARM_WARN", "ARM_ERR"}) invalid
    else if c = '2' then
      expandEventsLoop rest (evts ∪ {"ARM_INFO", "ARM_NOTICE", "ARM_WARN", "ARM_ERR"}) invalid
    else if c = '3' then
      expandEventsLoop rest (evts ∪ {"ARM_NOTICE", "ARM_WARN", "ARM_ERR"}) invalid
    else if c = '4' then
      expandEventsLoop rest (evts ∪ {"ARM_WARN", "ARM_ERR"}) invalid
    else if c = '5' then expandEventsLoop rest (insert "ARM_ERR" evts) invalid
    else
      match TOR_EVENT_TYPES.lookup c with
      | some name => expandEventsLoop rest (insert name evts) invalid
      | none => expandEventsLoop rest evts (invalid ++ [c])

/-- `expandEvents` of interface/logPanel.py: expands a compact flag string,
raising ValueError (modelled as `.error`) carrying the invalid characters. -/
def expandEvents (eventAbbr : String) : Except String (Finset String) :=
  let r := expandEventsLoop eventAbbr.data ∅ []
  if r.2 ≠ [] then .error (String.mk r.2) else .ok r.1

/-- A flag character the loop recognizes (never added to invalidFlags). -/
def recognizedFlag (c : Char) : Bool :=
  c ∈ ['A', 'X', 'C', 'U', 'D', 'I', 'N', 'W', 'E', '1', '2', '3', '4', '5'] ||
    (TOR_EVENT_TYPES.lookup c).isSome

/-- The characters the loop actually scans before an 'A' or 'X' breaks it. -/
def scannedFlags (l : List Char) : List Char :=
  l.takeWhile (fun c => ¬(c = 'A' ∨ c = 'X'))

/-! ### interface/logPanel.py : parseRunlevelRanges -/

/-- Loop state of `parseRunlevelRanges`: the (mutated) events list, emitted
labels, current range start and end, and the range length. -/
structure RRState where
  evts : List String
  labels : List String
  startLv : String
  endLv : String
  rangeLength : Nat
deriving DecidableEq

/-- One iteration of the runlevel loop of `parseRunlevelRanges`. -/
def rrStep (searchPfx : String) (st : RRState) (level : String) : RRState :=
  if (searchPfx ++ level) ∈ st.evts then
    { evts := st.evts.erase (searchPfx ++ level),
      labels := st.labels,
      startLv := if st.startLv ≠ "" then st.startLv else level,
      endLv := if st.startLv ≠ "" then level else st.endLv,
      rangeLength := if st.startLv ≠ "" then st.rangeLength + 1 else 1 }
  else if st.rangeLength > 0 then
    { evts := st.evts,
      labels := st.labels ++
        (if st.rangeLength = 1 then [st.startLv]
         else if st.rangeLength = 2 then [st.startLv, st.endLv]
         else [st.startLv ++ " - " ++ st.endLv]),
      startLv := "", endLv := "", rangeLength := 0 }
  else st

/-- `parseRunlevelRanges` of interface/logPanel.py.  Returns the label list
together with the events list after the removals (the Python function mutates
its argument). -/
def parseRunlevelRanges (eventsList : List String) (searchPfx : String) :
    List String × List String :=
  -- blank ending runlevel forces the break condition to be reached at the end
  let final := ["DEBUG", "INFO", "NOTICE", "WARN", "ERR", ""].foldl
    (rrStep searchPfx) ⟨eventsList, [], "", "", 0⟩
  (final.labels, final.evts)

/-- The invalid characters the loop accumulates: the unrecognized characters
occurring before the first 'A' or 'X'. -/
def badFlags (l : List Char) : List Char :=
  (scannedFlags l).filter (fun c => !(recognizedFlag c))

/-- The character at which the scan breaks off, if any ('A' or 'X'). -/
def breakFlag (l : List Char) : Option Char :=
  (l.dropWhile (fun c => ¬(c = 'A' ∨ c = 'X'))).head?

/-! ### interface/logPanel.py : splitLine -/

/-- Python slice `l[:i]` (a negative index counts from the end). -/
def pyTake (l : List Char) (i : Int) : List Char :=
  if 0 ≤ i then l.take i.toNat else l.take (l.length - (-i).toNat)

/-- Python slice `l[i:]` (a negative index counts from the end). -/
def pyDrop (l : List Char) (i : Int) : List Char :=
  if 0 ≤ i then l.drop i.toNat else l.drop (l.length - (-i).toNat)

/-- Python `str.strip()`: removes leading and trailing whitespace. -/
def pyStrip (l : List Char) : List Char :=
  ((l.dropWhile Char.isWhitespace).reverse.dropWhile Char.isWhitespace).reverse

/-- Python `str.rfind(" ")`: index of the last space, -1 when there is none. -/
def rfindSpace : List Char → Int
  | [] => -1
  | c :: rest =>
    let r := rfindSpace rest
    if 0 ≤ r then r + 1 else if c = ' ' then 0 else -1

/-- First half of `splitLine` of interface/logPanel.py: the initial division
of the message into `(line1, line2)` on a wordbreak or, failing a close-enough
one, a hyphen. -/
def splitLinePre (message : List Char) (x : Int) : List Char × List Char :=
  let lastWordbreak := rfindSpace (pyTake message x)
  if x - lastWordbreak < 10 then
    (pyTake message lastWordbreak, [' ', ' '] ++ pyStrip (pyDrop message lastWordbreak))
  else
    -- over ten characters until the last word - dividing
    (pyTake message (x - 2) ++ ['-'], [' ', ' '] ++ pyStrip (pyDrop message (x - 2)))

/-- Second half of `splitLine`: ends line2 with an ellipsis if too long. -/
def splitLineEllipsis (line2 : List Char) (x : Int) : List Char :=
  if (line2.length : Int) > x then
    let lastWordbreak := rfindSpace (pyTake line2 (x - 4))
    -- doesn't use wordbreak if it's a long word or the whole line is one
    -- word (picking up on two space indent to have index 1)
    let wordbreak2 :=
      if x - lastWordbreak > 10 ∨ lastWordbreak = 1 then x - 4 else lastWordbreak
    pyTake line2 wordbreak2 ++ ['.', '.', '.']
  else line2

/-- `splitLine` of interface/logPanel.py: divides a message into two display
lines, attempting to do it on a wordbreak. -/
def splitLine (message : List Char) (x : Int) : List Char × List Char :=
  let pre := splitLinePre message x
  (pre.1, splitLineEllipsis pre.2 x)

/-! ### interface/logPanel.py : LogMonitor state (registerEvent / setPaused) -/

/-- MAX_LOG_ENTRIES of interface/logPanel.py: size of log buffer. -/
def MAX_LOG_ENTRIES : Nat := 1000

/-- The mutable LogMonitor fields the buffer operations touch: `msgLog` is
the visible buffer (tuples of text and color), `pauseBuffer` the staging
buffer used while paused. -/
structure LogState where
  msgLog : List (String × String)
  pauseBuffer : List (String × String)
  isPaused : Bool
deriving DecidableEq

/-- `curses.ascii.isprint`: printable ASCII. -/
def isprintChar (c : Char) : Bool := 32 ≤ c.toNat && c.toNat < 127

/-- Python `"%02i" % n` for the time fields. -/
def fmt2 (n : Nat) : String := if n < 10 then "0" ++ toString n else toString n

/-- The per-line loop body of `registerEvent`: strips unprintable characters
and puts the `"HH:MM:SS [type]"` header on the first line only. -/
def eventLines (type : String) (t : Nat × Nat × Nat) : Bool → List String → List String
  | _, [] => []
  | firstLine, line :: rest =>
    let ml := String.mk (line.data.filter (fun c => isprintChar c))
    let header :=
      if firstLine then
        fmt2 t.1 ++ ":" ++ fmt2 t.2.1 ++ ":" ++ fmt2 t.2.2 ++ " [" ++ type ++ "]"
      else ""
    (header ++ " " ++ ml) :: eventLines type t false rest

/-- `del buf[MAX_LOG_ENTRIES:]` guarded by the length check, as in
`registerEvent`. -/
def truncLog (l : List (String × String)) : List (String × String) :=
  if l.length > MAX_LOG_ENTRIES then l.take MAX_LOG_ENTRIES else l

/-- `LogMonitor.registerEvent` of interface/logPanel.py.  `msg` is the
already-normalized list of message lines (a plain string is wrapped into a
one-element list by the Python code); `t` the effective (hour, minute,
second) timestamp.  The built batch is reversed and each line inserted at
index 0 of the active buffer, which is then truncated to the bound. -/
def registerEvent (st : LogState) (type : String) (msg : List String)
    (color : String) (t : Nat × Nat × Nat) : LogState :=
  let toAdd := (eventLines type t true msg).reverse
  if st.isPaused then
    { st with pauseBuffer := truncLog (toAdd.foldl (fun b line => (line, color) :: b) st.pauseBuffer) }
  else
    { st with msgLog := truncLog (toAdd.foldl (fun b line => (line, color) :: b) st.msgLog) }

/-- `LogMonitor.setPaused` of interface/logPanel.py. -/
def setPaused (st : LogState) (isPause : Bool) : LogState :=
  if isPause = st.isPaused then st
  else if isPause then { st with isPaused := true, pauseBuffer := [] }
  else { st with isPaused := false,
                 msgLog := (st.pauseBuffer ++ st.msgLog).take MAX_LOG_ENTRIES }

/-- The two buffer-touching operations of the log panel. -/
inductive LogOp
  | register (type : String) (msg : List String) (color : String) (t : Nat × Nat × Nat)
  | pause (isPause : Bool)

/-- Run one operation on the panel state. -/
def applyOp (st : LogState) : LogOp → LogState
  | .register ty msg color t => registerEvent st ty msg color t
  | .pause p => setPaused st p

/-- The same operations with the 1,000-entry truncation left out: the
untruncated buffers against which the truncation is compared. -/
def applyOpFull (st : LogState) : LogOp → LogState
  | .register ty msg color t =>
    let add := (eventLines ty t true msg).map (fun line => (line, color))
    if st.isPaused then { st with pauseBuffer := add ++ st.pauseBuffer }
    else { st with msgLog := add ++ st.msgLog }
  | .pause p =>
    if p = st.isPaused then st
    else if p then { st with isPaused := true, pauseBuffer := [] }
    else { st with isPaused := false, msgLog := st.pauseBuffer ++ st.msgLog }

/-! ### src/util/torTools.py : Controller.getInfo -/

/-- CACHE_ARGS of src/util/torTools.py: valid keys for the getInfo cache. -/
def CACHE_ARGS : List String :=
  ["version", "config-file", "exit-policy/default", "fingerprint",
   "config/names", "info/names", "features/names", "events/names",
   "nsEntry", "descEntry", "bwRate", "bwBurst", "bwObserved",
   "bwMeasured", "flags", "pid"]

/-- The exceptions getInfo/getOption catch: socket.error, TorCtl.ErrorReply
and TorCtl.TorCtlClosed. -/
inductive ConnErr
  | sockErr
  | errReply
  | closed
deriving DecidableEq

/-- Outcome of the underlying `conn.get_info(param)[param]` exchange: a value
(possibly None) or one of the caught exceptions. -/
inductive QueryReply
  | ok (v : Option String)
  | fail (e : ConnErr)
deriving DecidableEq

/-- Python truthiness of a cached value; `None` and the initial `""` are
falsy, any non-empty string (including the UNKNOWN sentinel) is truthy.
Both falsy states are modelled as `none`. -/
def pyTruthy : Option String → Bool
  | none => false
  | some s => s ≠ ""

/-- What a `getInfo` call produces: the returned-or-raised outcome, the cache
afterwards, and whether `close()` was invoked.  (The asynchronous cache reset
performed by the status-listener thread after a close is outside this
synchronous model.) -/
structure GetInfoRes where
  ret : Except ConnErr (Option String)
  cache : String → Option String
  closeCalled : Bool

/-- `Controller.getInfo` of src/util/torTools.py.  `alive` is the result of
the `isAlive()` check, `cache` the `_cachedParam` dict (None/"" as `none`),
and `reply` the outcome of the control-port exchange (unused when the cached
value is served or no live connection exists). -/
def getInfo (alive : Bool) (cache : String → Option String) (param : String)
    (default : Option String) (suppressExc : Bool) (reply : QueryReply) : GetInfoRes :=
  -- result, raisedExc, isFromCache = default, None, False
  let step : Option String × Option ConnErr × Bool × Bool :=
    if alive then
      if param ∈ CACHE_ARGS ∧ pyTruthy (cache param) = true then
        (cache param, none, true, false)
      else
        match reply with
        | .ok v => ((match v with | some s => some s | none => default), none, false, false)
        | .fail e => (default, some e, false, decide (e = ConnErr.closed))
    else (default, none, false, false)
  let result := step.1
  let raisedExc := step.2.1
  let isFromCache := step.2.2.1
  let cache' : String → Option String :=
    if isFromCache = false ∧ pyTruthy result = true ∧ param ∈ CACHE_ARGS then
      fun k => if k = param then result else cache k
    else cache
  { ret :=
      match raisedExc with
      | some e => if suppressExc then .ok result else .error e
      | none => .ok result,
    cache := cache',
    closeCalled := step.2.2.2 }

/-! ### src/util/torTools.py : Controller.getOption -/

/-- A Python value `getOption` can hold: None, a string, or a list of
strings (the initial `result = []` is the empty list). -/
inductive ConfVal
  | noneV
  | strV (s : String)
  | listV (l : List String)
deriving DecidableEq

/-- Outcome of `conn.get_option(param)`: the (key, value) pairs or one of the
caught exceptions. -/
inductive GetConfReply
  | ok (pairs : List (String × Option String))
  | fail (e : ConnErr)
deriving DecidableEq

/-- `Controller.getOption` of src/util/torTools.py.  The outer `none` models
the uncaught IndexError of `self.conn.get_option(param)[0][1]` on an empty
reply without the multiple flag; `some` carries the raised-or-returned
outcome.  (The `close()` side effect of a closed-connection error is
modelled in `getInfo`.) -/
def getOption (alive : Bool) (reply : GetConfReply) (default : ConfVal)
    (multiple : Bool) (suppressExc : Bool) : Option (Except ConnErr ConfVal) :=
  -- result, raisedExc = [], None
  let inner : Option (ConfVal × Option ConnErr) :=
    if alive then
      match reply with
      | .ok pairs =>
        if multiple then
          some (.listV (pairs.filterMap Prod.snd), none)
        else
          match pairs.head? with
          | none => none
          | some kv =>
            match kv.2 with
            | some s => some (.strV s, none)
            | none => some (.listV [], none)
      | .fail e => some (default, some e)
    else some (.listV [], none)
  match inner with
  | none => none
  | some ra =>
    match ra.2 with
    | some e =>
      if suppressExc = false then some (.error e)
      else if ra.1 = .listV [] then some (.ok default)
      else some (.ok ra.1)
    | none =>
      if ra.1 = .listV [] then some (.ok default)
      else some (.ok ra.1)

/-! ### src/util/torTools.py : Controller.setControllerEvents -/

/-- The keys of REQ_EVENTS: events required for controller functionality. -/
def REQ_EVENTS : Finset String := {"NOTICE", "NEWDESC", "NS", "NEWCONSENSUS"}

/-- Outcome of one `conn.set_events(...)` attempt. -/
inductive SetEventsReply
  | ok
  | unrecognized (name : String)
  | otherErr
  | closed
deriving DecidableEq

/-- State of the trial-and-error `while` loop of `setControllerEvents`. -/
structure SceLoopRes where
  isAbandoned : Bool
  events : Finset String
  unavailableEvents : Finset String
  closeCalled : Bool

/-- The trial-and-error loop: on an `Unrecognized event "X"` error reply the
failed type is moved from the attempted set into the unavailable set and the
call retried; any other error reply abandons; a closed-connection error
closes and abandons.  `fuel` bounds the retries (the Python loop terminates
because the router only rejects an event it was just asked for, which each
round removes from the attempted set). -/
def sceLoop (oracle : Finset String → SetEventsReply) :
    Nat → Finset String → Finset String → SceLoopRes
  | 0, evts, unav => ⟨true, evts, unav, false⟩
  | fuel + 1, evts, unav =>
    match oracle evts with
    | .ok => ⟨false, evts, unav, false⟩
    | .unrecognized x => sceLoop oracle fuel (evts.erase x) (insert x unav)
    | .otherErr => ⟨true, evts, unav, false⟩
    | .closed => ⟨true, evts, unav, true⟩

/-- What `setControllerEvents` leaves behind: its return value, the
`controllerEvents` field, the process-wide FAILED_EVENTS set, and whether
`close()` was invoked. -/
structure SceResult where
  returnVal : Finset String
  controllerEvents : Finset String
  failedEvents : Finset String
  closeCalled : Bool

/-- Python `str.split()` (split on whitespace, dropping empty fields). -/
def splitWs (s : String) : List String :=
  (s.split Char.isWhitespace).filter (fun w => w ≠ "")

/-- The initial availability check of `setControllerEvents`: if the
`events/names` GETINFO reply is truthy, the requested set is intersected with
it and the complement collected into the unavailable set. -/
def sceChecked (validEventsRep : Option String) (events1 unavailable0 : Finset String) :
    Finset String × Finset String :=
  match validEventsRep with
  | some s =>
    if s ≠ "" then
      ((events1 ∩ (splitWs s).toFinset),
        (unavailable0 ∪ (events1 \ (splitWs s).toFinset)))
    else (events1, unavailable0)
  | none => (events1, unavailable0)

/-- The tail of `setControllerEvents` after the trial-and-error loop:
FAILED_EVENTS absorbs the unavailable events; unless the attempt was
abandoned, the final accepted set is recorded and returned. -/
def sceFinish (ctrlEvents failedEvents : Finset String) (r : SceLoopRes) : SceResult :=
  if r.isAbandoned then ⟨∅, ctrlEvents, failedEvents ∪ r.unavailableEvents, r.closeCalled⟩
  else ⟨r.events, r.events, failedEvents ∪ r.unavailableEvents, r.closeCalled⟩

/-- `Controller.setControllerEvents` of src/util/torTools.py.  `alive` is the
`isAlive()` check, `failedEvents` the process-wide FAILED_EVENTS set,
`ctrlEvents` the current `controllerEvents` field, `validEventsRep` the reply
of the nested `getInfo("events/names")` (None on failure), `oracle` the
router's response to each `set_events` attempt, and `eventsIn` the requested
event set.  DROP_FAILED_EVENTS is True in the source. -/
def setControllerEvents (alive : Bool) (failedEvents : Finset String)
    (ctrlEvents : Finset String) (validEventsRep : Option String)
    (oracle : Finset String → SetEventsReply) (fuel : Nat)
    (eventsIn : Finset String) : SceResult :=
  if alive then
    let events0 := eventsIn ∪ REQ_EVENTS
    -- removes anything we've already failed to set
    let unavailable0 := events0 ∩ failedEvents
    let events1 := events0 \ failedEvents
    -- initial check for event availability via the events/names GETINFO option
    let checked := sceChecked validEventsRep events1 unavailable0
    -- attempt to set events via trial and error, then log and record
    sceFinish ctrlEvents failedEvents (sceLoop oracle fuel checked.1 checked.2)
  else
    -- attempts to set the events when next attached to a control port
    ⟨eventsIn, eventsIn, failedEvents, false⟩

/-! ### The claims as stated (for the refuted ones) -/

/-- Claim C1 as stated: a `getInfo` call whose query fails, or which runs
with no live connection, never writes to the cache at its key. -/
def ClaimC1 : Prop :=
  ∀ (alive : Bool) (cache : String → Option String) (param : String)
    (default : Option String) (suppressExc : Bool) (reply : QueryReply),
    (alive = false ∨
      (alive = true ∧ ¬(param ∈ CACHE_ARGS ∧ pyTruthy (cache param) = true) ∧
        ∃ e, reply = .fail e)) →
    (getInfo alive cache param default suppressExc reply).cache param = cache param

/-- Claim C2 as stated: the returned set is inside `E ∪ REQ_EVENTS` and
disjoint from the FAILED_EVENTS set at return time, alive or not. -/
def ClaimC2 : Prop :=
  ∀ (alive : Bool) (failedEvents ctrlEvents : Finset String)
    (validEventsRep : Option String) (oracle : Finset String → SetEventsReply)
    (fuel : Nat) (eventsIn : Finset String),
    (setControllerEvents alive failedEvents ctrlEvents validEventsRep oracle fuel
        eventsIn).returnVal ⊆ eventsIn ∪ REQ_EVENTS ∧
    (setControllerEvents alive failedEvents ctrlEvents validEventsRep oracle fuel
        eventsIn).returnVal ∩
      (setControllerEvents alive failedEvents ctrlEvents validEventsRep oracle fuel
        eventsIn).failedEvents = ∅

/-- Claim C3 as stated: `expandEvents` raises iff some character of the whole
input is unrecognized, and the payload is the subsequence of all the
unrecognized characters in input order. -/
def ClaimC3 : Prop :=
  ∀ s : String,
    ((∃ msg, expandEvents s = .error msg) ↔ ∃ c ∈ s.data, recognizedFlag c = false) ∧
    (∀ msg, expandEvents s = .error msg →
      msg = String.mk (s.data.filter (fun c => !(recognizedFlag c))))

/-- Claim C4 as stated: any flag string containing 'X' expands to the empty
set whenever no error is raised. -/
def ClaimC4 : Prop :=
  ∀ s : String, 'X' ∈ s.data → ∀ v, expandEvents s = .ok v → v = ∅

/-- Claim C8 as stated: whenever a space occurs in the first `x` characters
and the gap between `x` and the last such space is at most ten, the first
line is the message up to that space. -/
def ClaimC8 : Prop :=
  ∀ (m : List Char) (x : Int),
    0 ≤ rfindSpace (pyTake m x) →
    x - rfindSpace (pyTake m x) ≤ 10 →
    (splitLine m x).1 = pyTake m (rfindSpace (pyTake m x))

/-- A message whose last space in the first 20 characters sits exactly 10
characters before the width: "0123456789 abcdefghijklmnop". -/
def gapTenMsg : List Char :=
  ['0', '1', '2', '3', '4', '5', '6', '7', '8', '9', ' ',
   'a', 'b', 'c', 'd', 'e', 'f', 'g', 'h', 'i', 'j', 'k', 'l', 'm', 'n', 'o', 'p']

/-! ## Theorems -/

/-! ### expandEvents : scanning behaviour -/

theorem expandEventsLoop_skip (c : Char) (rest : List Char) (evts : Finset String) (inv : List Char)
    (h1 : c ≠ 'A') (h2 : c ≠ 'X') (h3 : c ≠ 'C') (h4 : c ≠ 'U') (h5 : c ≠ 'D') (h6 : c ≠ 'I')
    (h7 : c ≠ 'N') (h8 : c ≠ 'W') (h9 : c ≠ 'E') (h10 : c ≠ '1') (h11 : c ≠ '2') (h12 : c ≠ '3')
    (h13 : c ≠ '4') (h14 : c ≠ '5') (hl : TOR_EVENT_TYPES.lookup c = none) :
    expandEventsLoop (c :: rest) evts inv = expandEventsLoop rest evts (inv ++ [c]) := by
  conv_lhs => unfold expandEventsLoop
  rw [if_neg h1, if_neg h2, if_neg h3, if_neg h4, if_neg h5, if_neg h6, if_neg h7, if_neg h8,
    if_neg h9, if_neg h10, if_neg h11, if_neg h12, if_neg h13, if_neg h14, hl]

theorem expandEventsLoop_add (c : Char) (rest : List Char) (evts : Finset String) (inv : List Char)
    (name : String)
    (h1 : c ≠ 'A') (h2 : c ≠ 'X') (h3 : c ≠ 'C') (h4 : c ≠ 'U') (h5 : c ≠ 'D') (h6 : c ≠ 'I')
    (h7 : c ≠ 'N') (h8 : c ≠ 'W') (h9 : c ≠ 'E') (h10 : c ≠ '1') (h11 : c ≠ '2') (h12 : c ≠ '3')
    (h13 : c ≠ '4') (h14 : c ≠ '5') (hl : TOR_EVENT_TYPES.lookup c = some name) :
    expandEventsLoop (c :: rest) evts inv = expandEventsLoop rest (insert name evts) inv := by
  conv_lhs => unfold expandEventsLoop
  rw [if_neg h1, if_neg h2, if_neg h3, if_neg h4, if_neg h5, if_neg h6, if_neg h7, if_neg h8,
    if_neg h9, if_neg h10, if_neg h11, if_neg h12, if_neg h13, if_neg h14, hl]

theorem scannedFlags_cons (c : Char) (rest : List Char) (h1 : c ≠ 'A') (h2 : c ≠ 'X') :
    scannedFlags (c :: rest) = c :: scannedFlags rest := by
  simp [scannedFlags, List.takeWhile_cons, h1, h2]

theorem badFlags_cons_good (c : Char) (rest : List Char) (h1 : c ≠ 'A') (h2 : c ≠ 'X')
    (hr : recognizedFlag c = true) : badFlags (c :: rest) = badFlags rest := by
  simp [badFlags, scannedFlags_cons c rest h1 h2, List.filter_cons, hr]

theorem badFlags_cons_bad (c : Char) (rest : List Char) (h1 : c ≠ 'A') (h2 : c ≠ 'X')
    (hr : recognizedFlag c = false) : badFlags (c :: rest) = c :: badFlags rest := by
  simp [badFlags, scannedFlags_cons c rest h1 h2, List.filter_cons, hr]

theorem expandEventsLoop_snd (l : List Char) : ∀ (evts : Finset String) (inv : List Char),
    (expandEventsLoop l evts inv).2 = inv ++ badFlags l := by
  induction l with
  | nil => intro evts inv; simp [expandEventsLoop, badFlags, scannedFlags]
  | cons c rest ih =>
    intro evts inv
    by_cases h1 : c = 'A'
    · subst h1
      rw [show expandEventsLoop ('A' :: rest) evts inv = (ALL_EVENTS, inv) from rfl]
      simp [badFlags, scannedFlags]
    by_cases h2 : c = 'X'
    · subst h2
      rw [show expandEventsLoop ('X' :: rest) evts inv = (∅, inv) from rfl]
      simp [badFlags, scannedFlags]
    by_cases h3 : c = 'C'
    · subst h3
      rw [show expandEventsLoop ('C' :: rest) evts inv =
            expandEventsLoop rest (insert "TORCTL" evts) inv from rfl, ih,
        badFlags_cons_good _ _ h1 h2 (by decide)]
    by_cases h4 : c = 'U'
    · subst h4
      rw [show expandEventsLoop ('U' :: rest) evts inv =
            expandEventsLoop rest (insert "UNKNOWN" evts) inv from rfl, ih,
        badFlags_cons_good _ _ h1 h2 (by decide)]
    by_cases h5 : c = 'D'
    · subst h5
      rw [show expandEventsLoop ('D' :: rest) evts inv =
            expandEventsLoop rest (evts ∪ {"DEBUG", "INFO", "NOTICE", "WARN", "ERR"}) inv from rfl,
        ih, badFlags_cons_good _ _ h1 h2 (by decide)]
    by_cases h6 : c = 'I'
    · subst h6
      rw [show expandEventsLoop ('I' :: rest) evts inv =
            expandEventsLoop rest (evts ∪ {"INFO", "NOTICE", "WARN", "ERR"}) inv from rfl,
        ih, badFlags_cons_good _ _ h1 h2 (by decide)]
    by_cases h7 : c = 'N'
    · subst h7
      rw [show expandEventsLoop ('N' :: rest) evts inv =
            expandEventsLoop rest (evts ∪ {"NOTICE", "WARN", "ERR"}) inv from rfl,
        ih, badFlags_cons_good _ _ h1 h2 (by decide)]
    by_cases h8 : c = 'W'
    · subst h8
      rw [show expandEventsLoop ('W' :: rest) evts inv =
            expandEventsLoop rest (evts ∪ {"WARN", "ERR"}) inv from rfl,
        ih, badFlags_cons_good _ _ h1 h2 (by decide)]
    by_cases h9 : c = 'E'
    · subst h9
      rw [show expandEventsLoop ('E' :: rest) evts inv =
            expandEventsLoop rest (insert "ERR" evts) inv from rfl,
        ih, badFlags_cons_good _ _ h1 h2 (by decide)]
    by_cases h10 : c = '1'
    · subst h10
      rw [show expandEventsLoop ('1' :: rest) evts inv =
            expandEventsLoop rest
              (evts ∪ {"ARM_DEBUG", "ARM_INFO", "ARM_NOTICE", "ARM_WARN", "ARM_ERR"}) inv from rfl,
        ih, badFlags_cons_good _ _ h1 h2 (by decide)]
    by_cases h11 : c = '2'
    · subst h11
      rw [show expandEventsLoop ('2' :: rest) evts inv =
            expandEventsLoop rest (evts ∪ {"ARM_INFO", "ARM_NOTICE", "ARM_WARN", "ARM_ERR"}) inv
            from rfl,
        ih, badFlags_cons_good _ _ h1 h2 (by decide)]
    by_cases h12 : c = '3'
    · subst h12
      rw [show expandEventsLoop ('3' :: rest) evts inv =
            expandEventsLoop rest (evts ∪ {"ARM_NOTICE", "ARM_WARN", "ARM_ERR"}) inv from rfl,
        ih, badFlags_cons_good _ _ h1 h2 (by decide)]
    by_cases h13 : c = '4'
    · subst h13
      rw [show expandEventsLoop ('4' :: rest) evts inv =
            expandEventsLoop rest (evts ∪ {"ARM_WARN", "ARM_ERR"}) inv from rfl,
        ih, badFlags_cons_good _ _ h1 h2 (by decide)]
    by_cases h14 : c = '5'
    · subst h14
      rw [show expandEventsLoop ('5' :: rest) evts inv =
            expandEventsLoop rest (insert "ARM_ERR" evts) inv from rfl,
        ih, badFlags_cons_good _ _ h1 h2 (by decide)]
    cases hl : TOR_EVENT_TYPES.lookup c with
    | some name =>
      rw [expandEventsLoop_add c rest evts inv name h1 h2 h3 h4 h5 h6 h7 h8 h9 h10 h11 h12 h13
          h14 hl,
        ih, badFlags_cons_good _ _ h1 h2 (by simp [recognizedFlag, hl])]
    | none =>
      rw [expandEventsLoop_skip c rest evts inv h1 h2 h3 h4 h5 h6 h7 h8 h9 h10 h11 h12 h13 h14 hl,
        ih, badFlags_cons_bad _ _ h1 h2 ?_]
      · simp
      · simp [recognizedFlag, hl, h1, h2, h3, h4, h5, h6, h7, h8, h9, h10, h11, h12, h13, h14]

theorem expandEventsLoop_cons_noBreak (c : Char) (rest : List Char) (evts : Finset String)
    (inv : List Char) (h1 : c ≠ 'A') (h2 : c ≠ 'X') :
    ∃ e i, expandEventsLoop (c :: rest) evts inv = expandEventsLoop rest e i := by
  by_cases h3 : c = 'C'
  · subst h3; exact ⟨_, _, rfl⟩
  by_cases h4 : c = 'U'
  · subst h4; exact ⟨_, _, rfl⟩
  by_cases h5 : c = 'D'
  · subst h5; exact ⟨_, _, rfl⟩
  by_cases h6 : c = 'I'
  · subst h6; exact ⟨_, _, rfl⟩
  by_cases h7 : c = 'N'
  · subst h7; exact ⟨_, _, rfl⟩
  by_cases h8 : c = 'W'
  · subst h8; exact ⟨_, _, rfl⟩
  by_cases h9 : c = 'E'
  · subst h9; exact ⟨_, _, rfl⟩
  by_cases h10 : c = '1'
  · subst h10; exact ⟨_, _, rfl⟩
  by_cases h11 : c = '2'
  · subst h11; exact ⟨_, _, rfl⟩
  by_cases h12 : c = '3'
  · subst h12; exact ⟨_, _, rfl⟩
  by_cases h13 : c = '4'
  · subst h13; exact ⟨_, _, rfl⟩
  by_cases h14 : c = '5'
  · subst h14; exact ⟨_, _, rfl⟩
  cases hl : TOR_EVENT_TYPES.lookup c with
  | some name =>
    exact ⟨_, _, expandEventsLoop_add c rest evts inv name h1 h2 h3 h4 h5 h6 h7 h8 h9 h10 h11 h12
      h13 h14 hl⟩
  | none =>
    exact ⟨_, _, expandEventsLoop_skip c rest evts inv h1 h2 h3 h4 h5 h6 h7 h8 h9 h10 h11 h12
      h13 h14 hl⟩

theorem expandEventsLoop_fst_X (l : List Char) : ∀ (evts : Finset String) (inv : List Char),
    breakFlag l = some 'X' → (expandEventsLoop l evts inv).1 = ∅ := by
  induction l with
  | nil => intro evts inv h; simp [breakFlag] at h
  | cons c rest ih =>
    intro evts inv h
    by_cases h1 : c = 'A'
    · subst h1; simp [breakFlag, List.dropWhile_cons] at h
    by_cases h2 : c = 'X'
    · subst h2
      rw [show expandEventsLoop ('X' :: rest) evts inv = (∅, inv) from rfl]
    · obtain ⟨e, i, hstep⟩ := expandEventsLoop_cons_noBreak c rest evts inv h1 h2
      rw [hstep]
      apply ih
      simpa [breakFlag, List.dropWhile_cons, h1, h2] using h

/-- C3 counterexample: `expandEvents "XQ"` succeeds with the empty set even
though 'Q' is not in the recognized alphabet, because 'X' stops the scan. -/
theorem expandEvents_unscanned_cex : ¬ClaimC3 := by
  intro h
  obtain ⟨hiff, _⟩ := h "XQ"
  obtain ⟨msg, hmsg⟩ := hiff.mpr ⟨'Q', by decide, by decide⟩
  rw [show expandEvents "XQ" = .ok ∅ from rfl] at hmsg
  exact Except.noConfusion hmsg

/-- C3 (amended): `expandEvents flags` raises `InvalidFlags` iff a character
of the scanned part of `flags` (everything before the first 'A' or 'X') is
unrecognized, and the payload is exactly the subsequence of unrecognized
characters of that scanned part, in input order. -/
theorem expandEvents_invalid_iff (s : String) :
    ((∃ msg, expandEvents s = .error msg) ↔
      ∃ c ∈ scannedFlags s.data, recognizedFlag c = false) ∧
    (∀ msg, expandEvents s = .error msg → msg = String.mk (badFlags s.data)) := by
  have h := expandEventsLoop_snd s.data ∅ []
  rw [List.nil_append] at h
  constructor
  · constructor
    · rintro ⟨msg, hmsg⟩
      simp only [expandEvents] at hmsg
      split at hmsg
      · rename_i hne
        rw [h] at hne
        obtain ⟨c, hc⟩ := List.exists_mem_of_ne_nil _ hne
        have := List.mem_filter.mp hc
        exact ⟨c, this.1, by simpa using this.2⟩
      · exact Except.noConfusion hmsg
    · rintro ⟨c, hc, hbad⟩
      refine ⟨String.mk (expandEventsLoop s.data ∅ []).2, ?_⟩
      simp only [expandEvents]
      rw [if_pos]
      rw [h, badFlags]
      exact List.ne_nil_of_mem (List.mem_filter.mpr ⟨hc, by simp [hbad]⟩)
  · intro msg hmsg
    simp only [expandEvents] at hmsg
    split at hmsg
    · rw [← h]
      exact (Except.error.injEq _ _).mp hmsg.symm |>.symm ▸ rfl
    · exact Except.noConfusion hmsg

/-- C4 counterexample: "AX" contains 'X' yet expands, without error, to the
full event set ('A' stops the scan before the 'X' is seen). -/
theorem expandEvents_X_cex : ¬ClaimC4 := by
  intro h
  have := h "AX" (by decide) ALL_EVENTS rfl
  exact absurd this (by decide)

/-- C4 (amended): whenever the scan actually reaches an 'X' (no 'A' occurs
before it), `expandEvents` yields the empty set if it does not raise. -/
theorem expandEvents_X_empty (s : String) (v : Finset String)
    (hX : breakFlag s.data = some 'X') (hok : expandEvents s = .ok v) : v = ∅ := by
  have h := expandEventsLoop_fst_X s.data ∅ [] hX
  simp only [expandEvents] at hok
  split at hok
  · exact Except.noConfusion hok
  · rw [← h]
    exact ((Except.ok.injEq _ _).mp hok).symm

/-- C4 witness: the scan of "cfX" reaches the 'X' and the result is ∅. -/
theorem expandEvents_X_empty_witness :
    breakFlag "cfX".data = some 'X' ∧ expandEvents "cfX" = .ok ∅ ∧ (∅ : Finset String) = ∅ :=
  ⟨by decide, rfl, expandEvents_X_empty "cfX" ∅ (by decide) rfl⟩

/-- C7: `parseRunlevelRanges` on the spec's example consumes exactly the
ARM_-prefixed runlevels, leaving ["BW", "ERR"], and returns the labels
["DEBUG", "NOTICE - ERR"]. -/
theorem parseRunlevelRanges_example :
    parseRunlevelRanges ["BW", "ARM_WARN", "ERR", "ARM_ERR", "ARM_DEBUG", "ARM_NOTICE"] "ARM_" =
      (["DEBUG", "NOTICE - ERR"], ["BW", "ERR"]) := by decide

theorem foldl_insert_front (color : String) (l : List String) (buf : List (String × String)) :
    l.reverse.foldl (fun b line => (line, color) :: b) buf =
      l.map (fun line => (line, color)) ++ buf := by
  induction l generalizing buf with
  | nil => rfl
  | cons a t ih =>
    rw [List.reverse_cons, List.foldl_append, List.map_cons]
    simp [ih]

theorem truncLog_eq_take (l : List (String × String)) :
    truncLog l = l.take MAX_LOG_ENTRIES := by
  unfold truncLog
  split_ifs with h
  · rfl
  · rw [List.take_of_length_le (le_of_not_lt h)]

/-- C6: one `registerEvent` call or one `setPaused` transition, started from
buffers within the 1,000-entry bound, leaves each buffer equal to its
untruncated version cut to the first (newest) 1,000 entries: both bounds
hold afterwards and only the oldest entries, at the tail, are dropped. -/
theorem logBuffers_bounded (st : LogState) (op : LogOp)
    (h1 : st.msgLog.length ≤ MAX_LOG_ENTRIES)
    (h2 : st.pauseBuffer.length ≤ MAX_LOG_ENTRIES) :
    (applyOp st op).msgLog = ((applyOpFull st op).msgLog).take MAX_LOG_ENTRIES ∧
    (applyOp st op).pauseBuffer = ((applyOpFull st op).pauseBuffer).take MAX_LOG_ENTRIES ∧
    (applyOp st op).msgLog.length ≤ MAX_LOG_ENTRIES ∧
    (applyOp st op).pauseBuffer.length ≤ MAX_LOG_ENTRIES := by
  have htake : ∀ l : List (String × String),
      (l.take MAX_LOG_ENTRIES).length ≤ MAX_LOG_ENTRIES := by
    intro l; simp [List.length_take]
  cases op with
  | register ty msg color t =>
    cases hp : st.isPaused with
    | true =>
      simp only [applyOp, applyOpFull, registerEvent, hp, if_pos, foldl_insert_front,
        truncLog_eq_take]
      refine ⟨?_, ?_, ?_, ?_⟩ <;>
        first
          | trivial
          | exact (List.take_of_length_le h1).symm
          | exact (List.take_of_length_le h2).symm
          | exact h1
          | exact h2
          | apply htake
    | false =>
      simp only [applyOp, applyOpFull, registerEvent, hp, Bool.false_eq_true, if_false,
        foldl_insert_front, truncLog_eq_take]
      refine ⟨?_, ?_, ?_, ?_⟩ <;>
        first
          | trivial
          | exact (List.take_of_length_le h1).symm
          | exact (List.take_of_length_le h2).symm
          | exact h1
          | exact h2
          | apply htake
  | pause p =>
    by_cases hsame : p = st.isPaused
    · simp only [applyOp, applyOpFull, setPaused, if_pos hsame]
      refine ⟨?_, ?_, ?_, ?_⟩ <;>
        first
          | trivial
          | exact (List.take_of_length_le h1).symm
          | exact (List.take_of_length_le h2).symm
          | exact h1
          | exact h2
          | apply htake
    · cases p with
      | true =>
        simp only [applyOp, applyOpFull, setPaused, if_neg hsame, if_pos, List.take_nil]
        refine ⟨?_, ?_, ?_, ?_⟩ <;>
        first
            | trivial
            | exact (List.take_of_length_le h1).symm
            | exact (List.take_of_length_le h2).symm
            | exact h1
            | exact h2
            | apply htake
      | false =>
        simp only [applyOp, applyOpFull, setPaused, if_neg hsame, Bool.false_eq_true, if_false]
        refine ⟨?_, ?_, ?_, ?_⟩ <;>
        first
            | trivial
            | exact (List.take_of_length_le h1).symm
            | exact (List.take_of_length_le h2).symm
            | exact h1
            | exact h2
            | apply htake

/-- C6 witness: a register call on a small concrete state. -/
theorem logBuffers_bounded_witness :
    (applyOp ⟨[("08:00:00 [BW] old", "cyan")], [], false⟩
        (.register "BW" ["READ: 0, WRITTEN: 0"] "cyan" (8, 0, 1))).msgLog =
      ((applyOpFull ⟨[("08:00:00 [BW] old", "cyan")], [], false⟩
        (.register "BW" ["READ: 0, WRITTEN: 0"] "cyan" (8, 0, 1))).msgLog).take MAX_LOG_ENTRIES ∧
    (applyOp ⟨[("08:00:00 [BW] old", "cyan")], [], false⟩
        (.register "BW" ["READ: 0, WRITTEN: 0"] "cyan" (8, 0, 1))).pauseBuffer =
      ((applyOpFull ⟨[("08:00:00 [BW] old", "cyan")], [], false⟩
        (.register "BW" ["READ: 0, WRITTEN: 0"] "cyan" (8, 0, 1))).pauseBuffer).take
        MAX_LOG_ENTRIES ∧
    (applyOp ⟨[("08:00:00 [BW] old", "cyan")], [], false⟩
        (.register "BW" ["READ: 0, WRITTEN: 0"] "cyan" (8, 0, 1))).msgLog.length ≤
      MAX_LOG_ENTRIES ∧
    (applyOp ⟨[("08:00:00 [BW] old", "cyan")], [], false⟩
        (.register "BW" ["READ: 0, WRITTEN: 0"] "cyan" (8, 0, 1))).pauseBuffer.length ≤
      MAX_LOG_ENTRIES :=
  logBuffers_bounded ⟨[("08:00:00 [BW] old", "cyan")], [], false⟩
    (.register "BW" ["READ: 0, WRITTEN: 0"] "cyan" (8, 0, 1)) (by decide) (by decide)

/-- C9: pausing then immediately unpausing an unpaused panel whose visible
buffer is within the bound leaves the visible buffer identical,
entry for entry. -/
theorem pause_unpause_id (st : LogState) (h1 : st.isPaused = false)
    (h2 : st.msgLog.length ≤ MAX_LOG_ENTRIES) :
    (setPaused (setPaused st true) false).msgLog = st.msgLog := by
  have hstep : setPaused st true = { st with isPaused := true, pauseBuffer := [] } := by
    simp [setPaused, h1]
  rw [hstep]
  simp only [setPaused]
  rw [if_neg (by simp), if_neg (by simp)]
  simp only [List.nil_append]
  exact List.take_of_length_le h2

/-- C9 witness: a concrete two-entry unpaused panel round-trips. -/
theorem pause_unpause_id_witness :
    (setPaused (setPaused ⟨[("a", "red"), ("b", "blue")], [("c", "green")], false⟩ true)
        false).msgLog = [("a", "red"), ("b", "blue")] :=
  pause_unpause_id ⟨[("a", "red"), ("b", "blue")], [("c", "green")], false⟩ rfl (by decide)

/-- C1 counterexample: with no live connection, `getInfo("version", "d")`
writes the caller-supplied default "d" into the cache. -/
theorem getInfo_caches_default_cex : ¬ClaimC1 := by
  intro h
  have := h false (fun _ => none) "version" (some "d") true (.fail .sockErr) (Or.inl rfl)
  exact absurd this (by decide)

/-- C1 (amended): a `getInfo` call whose query fails or which runs with no
live connection writes the caller-supplied default into the cache exactly
when the default is truthy (neither None nor empty) and the key is a cached
key; in particular, with the default `None` such calls never write. -/
theorem getInfo_failed_cache (alive : Bool) (cache : String → Option String) (param : String)
    (default : Option String) (suppressExc : Bool) (reply : QueryReply)
    (h : alive = false ∨
      (alive = true ∧ ¬(param ∈ CACHE_ARGS ∧ pyTruthy (cache param) = true) ∧
        ∃ e, reply = .fail e)) :
    (getInfo alive cache param default suppressExc reply).cache param =
      (if pyTruthy default = true ∧ param ∈ CACHE_ARGS then default else cache param) := by
  rcases h with hdead | ⟨halive, hmiss, e, hfail⟩
  · subst hdead
    simp only [getInfo, Bool.false_eq_true, if_false]
    by_cases hc : pyTruthy default = true ∧ param ∈ CACHE_ARGS
    · rw [if_pos ⟨trivial, hc.1, hc.2⟩, if_pos hc]
      simp
    · rw [if_neg (fun hcon => hc ⟨hcon.2.1, hcon.2.2⟩), if_neg hc]
  · subst halive
    subst hfail
    simp only [getInfo, eq_self_iff_true, if_true, if_neg hmiss]
    by_cases hc : pyTruthy default = true ∧ param ∈ CACHE_ARGS
    · rw [if_pos ⟨trivial, hc.1, hc.2⟩, if_pos hc]
      simp
    · rw [if_neg (fun hcon => hc ⟨hcon.2.1, hcon.2.2⟩), if_neg hc]

/-- C1 witness: with a None default a dead-connection call leaves the cache
entry unchanged. -/
theorem getInfo_failed_cache_witness :
    (getInfo false (fun _ => none) "version" none true (.fail .errReply)).cache "version" =
      (if pyTruthy none = true ∧ "version" ∈ CACHE_ARGS then none else none) :=
  getInfo_failed_cache false (fun _ => none) "version" none true (.fail .errReply) (Or.inl rfl)

/-- C5: on a live connection whose query raises, all three caught error kinds
are handled: `close()` is invoked exactly for the closed-connection error,
the original error is re-raised when `suppressExc` is false, and the
caller-supplied default is returned when it is true. -/
theorem getInfo_error_handling (cache : String → Option String) (param : String)
    (default : Option String) (suppressExc : Bool) (e : ConnErr)
    (hmiss : ¬(param ∈ CACHE_ARGS ∧ pyTruthy (cache param) = true)) :
    (getInfo true cache param default suppressExc (.fail e)).closeCalled =
      decide (e = ConnErr.closed) ∧
    (getInfo true cache param default suppressExc (.fail e)).ret =
      (if suppressExc then .ok default else .error e) := by
  simp only [getInfo, eq_self_iff_true, if_true, if_neg hmiss]
  exact ⟨trivial, trivial⟩

/-- C5 witness: a closed-connection error with suppression on yields the
default and calls close(). -/
theorem getInfo_error_handling_witness :
    (getInfo true (fun _ => none) "version" (some "v0") true (.fail .closed)).closeCalled =
      decide (ConnErr.closed = ConnErr.closed) ∧
    (getInfo true (fun _ => none) "version" (some "v0") true (.fail .closed)).ret =
      (if true then .ok (some "v0") else .error ConnErr.closed) :=
  getInfo_error_handling (fun _ => none) "version" (some "v0") true ConnErr.closed
    (by decide)

/-- C10: when a GETCONF query succeeds but yields no values (the accumulated
result list is empty: every value is None, or the multiple-flag list is
empty), `getOption` returns the caller-supplied default; consequently
`getOption` never returns an empty list unless the default itself is one. -/
theorem getOption_empty_result_default (alive : Bool) (reply : GetConfReply) (default : ConfVal)
    (multiple suppressExc : Bool) :
    (∀ pairs, alive = true → reply = .ok pairs →
      ((multiple = true ∧ pairs.filterMap Prod.snd = []) ∨
       (multiple = false ∧ ∃ k, pairs.head? = some (k, none))) →
      getOption alive reply default multiple suppressExc = some (.ok default)) ∧
    (getOption alive reply default multiple suppressExc = some (.ok (.listV [])) →
      default = .listV []) := by
  constructor
  · rintro pairs ha hr hcase
    subst ha
    subst hr
    rcases hcase with ⟨hm, hempty⟩ | ⟨hm, k, hhead⟩
    · subst hm
      simp [getOption, hempty]
    · subst hm
      simp [getOption, hhead]
  · intro hret
    simp only [getOption] at hret
    split at hret
    · exact Option.noConfusion hret
    · split at hret
      · split at hret
        · simp at hret
        · split at hret
          · simpa using hret
          · rename_i hne
            exact absurd (by simpa using hret) hne
      · split at hret
        · simpa using hret
        · rename_i hne
          exact absurd (by simpa using hret) hne

theorem sceLoop_events_subset (oracle : Finset String → SetEventsReply) (fuel : Nat) :
    ∀ (ev un : Finset String), (sceLoop oracle fuel ev un).events ⊆ ev := by
  induction fuel with
  | zero => intro ev un; exact Finset.Subset.refl ev
  | succ n ih =>
    intro ev un
    simp only [sceLoop]
    cases oracle ev with
    | ok => exact Finset.Subset.refl ev
    | unrecognized x => exact (ih (ev.erase x) (insert x un)).trans (Finset.erase_subset x ev)
    | otherErr => exact Finset.Subset.refl ev
    | closed => exact Finset.Subset.refl ev

theorem sceLoop_inter_subset (oracle : Finset String → SetEventsReply) (fuel : Nat) :
    ∀ (ev un : Finset String),
      (sceLoop oracle fuel ev un).events ∩ (sceLoop oracle fuel ev un).unavailableEvents ⊆
        ev ∩ un := by
  induction fuel with
  | zero => intro ev un; exact Finset.Subset.refl _
  | succ n ih =>
    intro ev un
    simp only [sceLoop]
    cases oracle ev with
    | ok => exact Finset.Subset.refl _
    | unrecognized x =>
      refine (ih (ev.erase x) (insert x un)).trans ?_
      intro y hy
      simp only [Finset.mem_inter, Finset.mem_erase, Finset.mem_insert] at hy
      rcases hy with ⟨⟨hyx, hyev⟩, hyun⟩
      exact Finset.mem_inter.mpr ⟨hyev, hyun.resolve_left hyx⟩
    | otherErr => exact Finset.Subset.refl _
    | closed => exact Finset.Subset.refl _

theorem sceLoop_final_disjoint (oracle : Finset String → SetEventsReply) (fuel : Nat)
    (ev un failed : Finset String) (h1 : ev ∩ failed = ∅) (h2 : ev ∩ un = ∅) :
    (sceLoop oracle fuel ev un).events ∩
      (failed ∪ (sceLoop oracle fuel ev un).unavailableEvents) = ∅ := by
  rw [Finset.inter_union_distrib_left]
  rw [Finset.union_eq_empty]
  constructor
  · rw [← Finset.subset_empty, ← h1]
    exact Finset.inter_subset_inter (sceLoop_events_subset oracle fuel ev un)
      (Finset.Subset.refl failed)
  · rw [← Finset.subset_empty, ← h2]
    exact sceLoop_inter_subset oracle fuel ev un

theorem sceChecked_fst_subset (validEventsRep : Option String)
    (events1 unavailable0 : Finset String) :
    (sceChecked validEventsRep events1 unavailable0).1 ⊆ events1 := by
  rcases validEventsRep with _ | s
  · exact Finset.Subset.refl _
  · simp only [sceChecked]
    split_ifs
    · exact Finset.inter_subset_left
    · exact Finset.Subset.refl _

theorem sceChecked_disjoint (validEventsRep : Option String)
    (events1 unavailable0 : Finset String) (h : events1 ∩ unavailable0 = ∅) :
    (sceChecked validEventsRep events1 unavailable0).1 ∩
      (sceChecked validEventsRep events1 unavailable0).2 = ∅ := by
  rcases validEventsRep with _ | s
  · exact h
  · simp only [sceChecked]
    split_ifs
    · rw [Finset.inter_union_distrib_left, Finset.union_eq_empty]
      constructor
      · rw [← Finset.subset_empty, ← h]
        exact Finset.inter_subset_inter Finset.inter_subset_left (Finset.Subset.refl _)
      · rw [← Finset.subset_empty]
        intro y hy
        simp only [Finset.mem_inter, Finset.mem_sdiff] at hy
        exact absurd hy.1.2 hy.2.2
    · exact h

theorem sceFinish_props (ctrlEvents failedEvents : Finset String) (r : SceLoopRes)
    (S : Finset String) (hsub : r.events ⊆ S)
    (hdisj : r.events ∩ (failedEvents ∪ r.unavailableEvents) = ∅) :
    (sceFinish ctrlEvents failedEvents r).returnVal ⊆ S ∧
    (sceFinish ctrlEvents failedEvents r).returnVal ∩
      (sceFinish ctrlEvents failedEvents r).failedEvents = ∅ := by
  unfold sceFinish
  split_ifs
  · exact ⟨Finset.empty_subset S, Finset.empty_inter _⟩
  · exact ⟨hsub, hdisj⟩

/-- C2 counterexample: with no live connection, `setControllerEvents({"FOO"})`
returns {"FOO"} as-is even though "FOO" is already in FAILED_EVENTS. -/
theorem setControllerEvents_dead_cex : ¬ClaimC2 := by
  intro h
  have := (h false {"FOO"} ∅ none (fun _ => .ok) 0 {"FOO"}).2
  exact absurd this (by decide)

/-- C2 (amended): `setControllerEvents(E)` always returns a subset of
`E ∪ REQUIRED`; when a live connection exists the returned set is moreover
disjoint from the process-wide failedEvents set at return time (with no
live connection the requested set is recorded and returned as-is and may
still intersect failedEvents). -/
theorem setControllerEvents_subset_disjoint (alive : Bool)
    (failedEvents ctrlEvents : Finset String) (validEventsRep : Option String)
    (oracle : Finset String → SetEventsReply) (fuel : Nat) (eventsIn : Finset String) :
    (setControllerEvents alive failedEvents ctrlEvents validEventsRep oracle fuel
        eventsIn).returnVal ⊆ eventsIn ∪ REQ_EVENTS ∧
    (alive = true →
      (setControllerEvents alive failedEvents ctrlEvents validEventsRep oracle fuel
          eventsIn).returnVal ∩
        (setControllerEvents alive failedEvents ctrlEvents validEventsRep oracle fuel
          eventsIn).failedEvents = ∅) := by
  cases alive with
  | false =>
    simp only [setControllerEvents, Bool.false_eq_true, if_false]
    exact ⟨Finset.subset_union_left, fun hcontra => False.elim hcontra⟩
  | true =>
    simp only [setControllerEvents, eq_self_iff_true, if_true]
    have hsub1 : (sceChecked validEventsRep ((eventsIn ∪ REQ_EVENTS) \ failedEvents)
        ((eventsIn ∪ REQ_EVENTS) ∩ failedEvents)).1 ⊆ (eventsIn ∪ REQ_EVENTS) \ failedEvents :=
      sceChecked_fst_subset _ _ _
    have hfail1 : (sceChecked validEventsRep ((eventsIn ∪ REQ_EVENTS) \ failedEvents)
        ((eventsIn ∪ REQ_EVENTS) ∩ failedEvents)).1 ∩ failedEvents = ∅ := by
      rw [← Finset.subset_empty]
      intro y hy
      simp only [Finset.mem_inter] at hy
      have := hsub1 hy.1
      simp only [Finset.mem_sdiff] at this
      exact absurd hy.2 this.2
    have hdisj1 : (sceChecked validEventsRep ((eventsIn ∪ REQ_EVENTS) \ failedEvents)
        ((eventsIn ∪ REQ_EVENTS) ∩ failedEvents)).1 ∩
        (sceChecked validEventsRep ((eventsIn ∪ REQ_EVENTS) \ failedEvents)
        ((eventsIn ∪ REQ_EVENTS) ∩ failedEvents)).2 = ∅ := by
      apply sceChecked_disjoint
      rw [← Finset.subset_empty]
      intro y hy
      simp only [Finset.mem_inter, Finset.mem_sdiff] at hy
      exact absurd hy.2.2 hy.1.2
    have hmain := sceFinish_props ctrlEvents failedEvents
      (sceLoop oracle fuel _ _) (eventsIn ∪ REQ_EVENTS)
      ((sceLoop_events_subset oracle fuel _ _).trans (hsub1.trans Finset.sdiff_subset))
      (sceLoop_final_disjoint oracle fuel _ _ failedEvents hfail1 hdisj1)
    exact ⟨hmain.1, fun _ => hmain.2⟩

/-! ### splitLine properties -/

theorem rfindSpace_lt_length (l : List Char) : rfindSpace l < (l.length : Int) := by
  induction l with
  | nil => simp [rfindSpace]
  | cons c rest ih =>
    simp only [rfindSpace, List.length_cons]
    split_ifs with h1 h2 <;> push_cast <;> omega

theorem rfindSpace_head_space (rest : List Char) : 0 ≤ rfindSpace (' ' :: rest) := by
  simp only [rfindSpace]
  split_ifs with h1
  · omega
  · omega

theorem rfindSpace_two_spaces (rest : List Char) : 1 ≤ rfindSpace (' ' :: ' ' :: rest) := by
  have h := rfindSpace_head_space rest
  rw [show rfindSpace (' ' :: ' ' :: rest) =
      (if 0 ≤ rfindSpace (' ' :: rest) then rfindSpace (' ' :: rest) + 1
       else if (' ' = ' ') then 0 else -1) from rfl]
  rw [if_pos h]
  omega

/-- C8 counterexample: at width 20 and a message whose last space in the
first 20 characters sits exactly 10 before the width, the code hyphenates
at width-2 instead of breaking at the space. -/
theorem splitLine_gap_ten_cex : ¬ClaimC8 := by
  intro h
  have := h gapTenMsg 20 (by decide) (by decide)
  exact absurd this (by decide)

theorem pyTake_two_spaces (t : List Char) (i : Int) (h2 : 2 ≤ i) :
    pyTake (' ' :: ' ' :: t) i = ' ' :: ' ' :: t.take (i.toNat - 2) := by
  rw [pyTake, if_pos (by omega)]
  obtain ⟨k, hk⟩ : ∃ k, i.toNat = k + 2 := ⟨i.toNat - 2, by omega⟩
  rw [hk]
  simp [List.take_succ_cons]

theorem splitLineEllipsis_fit (line2 : List Char) (x : Int)
    (h : ¬((line2.length : Int) > x)) : splitLineEllipsis line2 x = line2 := by
  simp only [splitLineEllipsis, if_neg h]

theorem splitLineEllipsis_cut (line2 : List Char) (x : Int)
    (hover : (line2.length : Int) > x) :
    (¬(x - rfindSpace (pyTake line2 (x - 4)) > 10 ∨ rfindSpace (pyTake line2 (x - 4)) = 1) →
      splitLineEllipsis line2 x =
        pyTake line2 (rfindSpace (pyTake line2 (x - 4))) ++ ['.', '.', '.']) ∧
    ((x - rfindSpace (pyTake line2 (x - 4)) > 10 ∨ rfindSpace (pyTake line2 (x - 4)) = 1) →
      splitLineEllipsis line2 x = pyTake line2 (x - 4) ++ ['.', '.', '.']) := by
  constructor
  · intro h
    simp only [splitLineEllipsis, if_pos hover]
    rw [if_neg h]
  · intro h
    simp only [splitLineEllipsis, if_pos hover]
    rw [if_pos h]

theorem splitLineEllipsis_overflow (t : List Char) (x : Int) (hx : 6 ≤ x)
    (hover : (((' ' :: ' ' :: t).length : Int) > x)) :
    ((splitLineEllipsis (' ' :: ' ' :: t) x).length : Int) ≤ x ∧
    (splitLineEllipsis (' ' :: ' ' :: t) x).reverse.take 3 = ['.', '.', '.'] ∧
    (splitLineEllipsis (' ' :: ' ' :: t) x).take 2 = [' ', ' '] := by
  have hwin : pyTake (' ' :: ' ' :: t) (x - 4) =
      ' ' :: ' ' :: t.take ((x - 4).toNat - 2) := pyTake_two_spaces t (x - 4) (by omega)
  simp only [splitLineEllipsis, if_pos hover, hwin]
  have hr1 : 1 ≤ rfindSpace (' ' :: ' ' :: t.take ((x - 4).toNat - 2)) :=
    rfindSpace_two_spaces _
  have hrlt : rfindSpace (' ' :: ' ' :: t.take ((x - 4).toNat - 2)) <
      ((' ' :: ' ' :: t.take ((x - 4).toNat - 2)).length : Int) :=
    rfindSpace_lt_length _
  generalize hrdef : rfindSpace (' ' :: ' ' :: t.take ((x - 4).toNat - 2)) = r at hr1 hrlt ⊢
  have hrx : r ≤ x - 5 := by
    have hlen : ((' ' :: ' ' :: t.take ((x - 4).toNat - 2)).length : Int) ≤ x - 4 := by
      simp only [List.length_cons, List.length_take]
      push_cast
      omega
    omega
  have hWex : ∃ W : Int, (if x - r > 10 ∨ r = 1 then x - 4 else r) = W ∧ 2 ≤ W ∧ W ≤ x - 4 := by
    split_ifs with hc
    · exact ⟨x - 4, rfl, by omega, le_refl _⟩
    · push_neg at hc
      exact ⟨r, rfl, by omega, by omega⟩
  obtain ⟨W, hWdef, hWa, hWb⟩ := hWex
  rw [hWdef]
  obtain ⟨n, rfl⟩ : ∃ n : Nat, W = (n : Int) := ⟨W.toNat, (Int.toNat_of_nonneg (by omega)).symm⟩
  have h2n : 2 ≤ n := by exact_mod_cast hWa
  have hptake : pyTake (' ' :: ' ' :: t) (n : Int) = ' ' :: ' ' :: t.take (n - 2) := by
    have := pyTake_two_spaces t (n : Int) hWa
    simpa using this
  rw [hptake]
  refine ⟨?_, ?_, ?_⟩
  · have hlenN : (' ' :: ' ' :: List.take (n - 2) t ++ ['.', '.', '.']).length ≤ n + 3 := by
      have htk := List.length_take_le (n - 2) t
      simp only [List.length_append, List.length_cons, List.length_nil]
      omega
    have hcastle : ((' ' :: ' ' :: List.take (n - 2) t ++ ['.', '.', '.']).length : Int) ≤
        (n : Int) + 3 := by exact_mod_cast hlenN
    omega
  · rw [List.reverse_append]
    rfl
  · rfl

/-- C8 (amended): for widths of at least 6, `splitLine` breaks at the last
space of the first `x` characters when the gap to the width is strictly less
than ten, and hyphenates at `x - 2` when the gap is ten or more (at a gap of
exactly ten it hyphenates, not breaks); the continuation line starts with a
two-space indent; if the continuation fits it is kept as is, and otherwise it
fits the width and ends with an ellipsis placed at the last word-break of its
first `x - 4` characters when that break is suitable (its gap to the width is
at most ten and it is not the indent position 1), and at `x - 4` otherwise. -/
theorem splitLine_spec (m : List Char) (x : Int) (hx : 6 ≤ x) :
    (x - rfindSpace (pyTake m x) < 10 →
        (splitLine m x).1 = pyTake m (rfindSpace (pyTake m x))) ∧
    (10 ≤ x - rfindSpace (pyTake m x) →
        (splitLine m x).1 = pyTake m (x - 2) ++ ['-']) ∧
    (splitLine m x).2.take 2 = [' ', ' '] ∧
    (((splitLinePre m x).2.length : Int) ≤ x → (splitLine m x).2 = (splitLinePre m x).2) ∧
    (((splitLinePre m x).2.length : Int) > x →
      ((splitLine m x).2.length : Int) ≤ x ∧
      (splitLine m x).2.reverse.take 3 = ['.', '.', '.'] ∧
      (¬(x - rfindSpace (pyTake (splitLinePre m x).2 (x - 4)) > 10 ∨
          rfindSpace (pyTake (splitLinePre m x).2 (x - 4)) = 1) →
        (splitLine m x).2 =
          pyTake (splitLinePre m x).2
            (rfindSpace (pyTake (splitLinePre m x).2 (x - 4))) ++ ['.', '.', '.']) ∧
      ((x - rfindSpace (pyTake (splitLinePre m x).2 (x - 4)) > 10 ∨
          rfindSpace (pyTake (splitLinePre m x).2 (x - 4)) = 1) →
        (splitLine m x).2 = pyTake (splitLinePre m x).2 (x - 4) ++ ['.', '.', '.'])) := by
  obtain ⟨t, ht⟩ : ∃ t, (splitLinePre m x).2 = ' ' :: ' ' :: t := by
    simp only [splitLinePre]
    split_ifs <;> exact ⟨_, rfl⟩
  have h1 : (splitLine m x).1 = (splitLinePre m x).1 := rfl
  have h2 : (splitLine m x).2 = splitLineEllipsis (splitLinePre m x).2 x := rfl
  refine ⟨?_, ?_, ?_, ?_, ?_⟩
  · intro h
    rw [h1]
    simp only [splitLinePre]
    rw [if_pos h]
  · intro h
    rw [h1]
    simp only [splitLinePre]
    rw [if_neg (by omega)]
  · by_cases hov : ((splitLinePre m x).2.length : Int) > x
    · rw [h2, ht]
      rw [ht] at hov
      exact (splitLineEllipsis_overflow t x hx hov).2.2
    · rw [h2, splitLineEllipsis_fit _ _ hov, ht]
      rfl
  · intro h
    rw [h2, splitLineEllipsis_fit _ _ (by omega)]
  · intro h
    have hcut := splitLineEllipsis_cut (splitLinePre m x).2 x h
    rw [ht] at h
    refine ⟨?_, ?_, ?_, ?_⟩
    · rw [h2, ht]
      exact (splitLineEllipsis_overflow t x hx h).1
    · rw [h2, ht]
      exact (splitLineEllipsis_overflow t x hx h).2.1
    · intro hs
      rw [h2]
      exact hcut.1 hs
    · intro hs
      rw [h2]
      exact hcut.2 hs

/-- C8 witness: the spec's own wrap scenario at width 20: the message breaks
at the last space of the first 20 characters, the continuation is indented
two spaces, overflows and ends with an ellipsis within the width. -/
theorem splitLine_spec_witness :
    (20 - rfindSpace (pyTake "a very long message that must be wrapped cleanly".data 20) < 10 →
        (splitLine "a very long message that must be wrapped cleanly".data 20).1 =
          pyTake "a very long message that must be wrapped cleanly".data
            (rfindSpace (pyTake "a very long message that must be wrapped cleanly".data 20))) ∧
    (10 ≤ 20 - rfindSpace (pyTake "a very long message that must be wrapped cleanly".data 20) →
        (splitLine "a very long message that must be wrapped cleanly".data 20).1 =
          pyTake "a very long message that must be wrapped cleanly".data (20 - 2) ++ ['-']) ∧
    (splitLine "a very long message that must be wrapped cleanly".data 20).2.take 2 =
      [' ', ' '] ∧
    (((splitLinePre "a very long message that must be wrapped cleanly".data 20).2.length : Int) ≤
        20 →
      (splitLine "a very long message that must be wrapped cleanly".data 20).2 =
        (splitLinePre "a very long message that must be wrapped cleanly".data 20).2) ∧
    (((splitLinePre "a very long message that must be wrapped cleanly".data 20).2.length : Int) >
        20 →
      ((splitLine "a very long message that must be wrapped cleanly".data 20).2.length : Int) ≤
          20 ∧
      (splitLine "a very long message that must be wrapped cleanly".data 20).2.reverse.take 3 =
          ['.', '.', '.'] ∧
      (¬(20 - rfindSpace (pyTake
            (splitLinePre "a very long message that must be wrapped cleanly".data 20).2
            (20 - 4)) > 10 ∨
          rfindSpace (pyTake
            (splitLinePre "a very long message that must be wrapped cleanly".data 20).2
            (20 - 4)) = 1) →
        (splitLine "a very long message that must be wrapped cleanly".data 20).2 =
          pyTake (splitLinePre "a very long message that must be wrapped cleanly".data 20).2
            (rfindSpace (pyTake
              (splitLinePre "a very long message that must be wrapped cleanly".data 20).2
              (20 - 4))) ++ ['.', '.', '.']) ∧
      ((20 - rfindSpace (pyTake
            (splitLinePre "a very long message that must be wrapped cleanly".data 20).2
            (20 - 4)) > 10 ∨
          rfindSpace (pyTake
            (splitLinePre "a very long message that must be wrapped cleanly".data 20).2
            (20 - 4)) = 1) →
        (splitLine "a very long message that must be wrapped cleanly".data 20).2 =
          pyTake (splitLinePre "a very long message that must be wrapped cleanly".data 20).2
            (20 - 4) ++ ['.', '.', '.'])) :=
  splitLine_spec "a very long message that must be wrapped cleanly".data 20 (by decide)
